import Mathlib

/-!
Shallow embedding of the core of `lost-n-found-game` (src/main.rs) and proofs
about it.  Machine integers are modelled as `Int`/`Nat`; the two places where
integer-width behaviour is observable (the `usize → i32` cast in
`get_grid_size_from_level` and the `u64` multiplication in
`get_board_time_from_level`) carry an explicit wrap.  Wall-clock instants are
modelled as `Nat` time units (seconds); a `Timer` stores its creation instant
and duration, and every operation that reads the clock takes the current
instant `now` as an argument.
-/

namespace LnF

/-- Source `utils::Rect`: an axis-aligned rectangle in window coordinates. -/
structure Rect where
  left : Int
  top : Int
  width : Int
  height : Int
deriving DecidableEq, Repr

/-- Source `Rect::right`. -/
def Rect.right (r : Rect) : Int := r.left + r.width - 1

/-- Source `Rect.bottom`. -/
def Rect.bottom (r : Rect) : Int := r.top + r.height - 1

/-- Source `utils::Timer`: a countdown created at instant `start_time` that
runs for `duration` time units. -/
structure Timer where
  start_time : Nat
  duration : Nat
deriving DecidableEq, Repr

/-- Source `Timer::time_left`: `duration - min(elapsed, duration)`. -/
def Timer.time_left (t : Timer) (now : Nat) : Nat :=
  t.duration - min (now - t.start_time) t.duration

/-- Source `Timer::finished`: no time left. -/
def Timer.finished (t : Timer) (now : Nat) : Bool :=
  t.time_left now == 0

/-- Source `game::HintDir`. -/
inductive HintDir
  | Left
  | Up
  | Right
  | Down
deriving DecidableEq, Repr

/-- Source `HintDir::flip`. -/
def HintDir.flip : HintDir → HintDir
  | .Left => .Right
  | .Right => .Left
  | .Down => .Up
  | .Up => .Down

/-- Source `game::TrapType`. -/
inductive TrapType
  | Confusion
deriving DecidableEq, Repr

/-- Source `game::GridItem`. -/
inductive GridItem
  | Solution
  | Hint (d : HintDir)
  | Trap (t : TrapType)
  | Empty
deriving DecidableEq, Repr

/-- Source `game::GridCell`. -/
structure GridCell where
  item : GridItem
  revealed : Bool
deriving DecidableEq, Repr

/-- Source `displacement_to_hint_direction` (nested fn inside `GameGrid::new`):
absolute values compared via `natAbs`, which agrees with `i32::abs` on the
idealized integers used here. -/
def displacement_to_hint_direction (x_displacement y_displacement : Int) : HintDir :=
  if x_displacement.natAbs > y_displacement.natAbs then
    if x_displacement > 0 then HintDir.Left else HintDir.Right
  else
    if y_displacement > 0 then HintDir.Up else HintDir.Down

namespace xform

/-- Source `xform::game_grid_to_window`. -/
def game_grid_to_window (x y grid_left grid_top : Int) : Rect :=
  let window_left := grid_left + 1 + (3 + 1) * x
  let window_top := grid_top + 1 + 2 * y
  { left := window_left, top := window_top, width := 3, height := 2 }

/-- Source `xform::window_to_game_grid`.  Rust `/` on `i32` truncates toward
zero, which is `Int.div`. -/
def window_to_game_grid (x y grid_left grid_top : Int) : Int × Int :=
  let window_at_origin := (x - grid_left - 1, y - grid_top - 1)
  (Int.tdiv window_at_origin.1 4, Int.tdiv window_at_origin.2 2)

end xform

/-- Interpretation of Rust `usize as i32` (low 32 bits, two's complement). -/
def usize_as_i32 (n : Nat) : Int := ((n : Int) + 2 ^ 31) % 2 ^ 32 - 2 ^ 31

/-- Source `get_board_time_from_level`, in whole seconds.  `level` is a `usize`
(so callers always satisfy `level < 2 ^ 64`); the `u64` multiplication
`difficulty_step * 2` carries its wrap explicitly. -/
def get_board_time_from_level (level : Nat) : Nat :=
  let MAX_TIME_SECS := 15
  let MAX_TIME_REDUCTION_SECS := 10
  let MIN_AFFECTED_LEVEL := 6
  let adjusted_level := level - min level MIN_AFFECTED_LEVEL
  let difficulty_step := adjusted_level / 3
  let time_reduction_in_secs := difficulty_step * 2 % 2 ^ 64
  let capped_time_reduction_in_secs := min time_reduction_in_secs MAX_TIME_REDUCTION_SECS
  MAX_TIME_SECS - capped_time_reduction_in_secs

/-- Source `get_grid_size_from_level`.  The source computes
`difficulty_step as i32`, a wrapping `usize → i32` cast; the final additions
stay inside `i32` range because the capped growth is at most `10` and at least
`-2 ^ 31`. -/
def get_grid_size_from_level (level : Nat) : Int × Int :=
  let START_BOARD_SIZE : Int × Int := (15, 10)
  let MAX_BOARD_GROWTH : Int := 10
  let difficulty_step := level / 3
  let board_growth := usize_as_i32 difficulty_step
  let capped_board_growth := min board_growth MAX_BOARD_GROWTH
  (START_BOARD_SIZE.1 + capped_board_growth, START_BOARD_SIZE.2 + capped_board_growth)

/-- Source `get_max_revealed_cells_from_level`. -/
def get_max_revealed_cells_from_level (level : Nat) : Nat :=
  let INITIAL_MAX_REVEALED_CELLS := 6
  let MAX_REVEALED_CELL_REDUCTION := 5
  let difficulty_step := level / 5
  let revealed_cell_reduction := difficulty_step
  let capped_revealed_cell_reduction := min revealed_cell_reduction MAX_REVEALED_CELL_REDUCTION
  INITIAL_MAX_REVEALED_CELLS - capped_revealed_cell_reduction

/-- External random source (`snm_rand_utils::range_rng::RangeRng`), embedded
as an explicit state machine: `gen_range s n` performs the call
`gen_range(0, n)` in generator state `s`, returning the drawn value and the
advanced state. -/
structure RangeRng (S : Type) where
  gen_range : S → Nat → Nat × S

/-- The contract of `gen_range(0, n)`: the draw lies in `[0, n)`. -/
def RngOk {S : Type} (rng : RangeRng S) : Prop :=
  ∀ s n, 0 < n → (rng.gen_range s n).1 < n

/-- Source local enum `RandomCell` inside `GameGrid::new`. -/
inductive RandomCell
  | Empty
  | Trap
  | Hint
deriving DecidableEq, Repr

/-- Source `RANDOM_CELL_DISTRIBUTION`: 1 trap slot, 2 empty slots, 7 hint
slots out of 10. -/
def RANDOM_CELL_DISTRIBUTION : List RandomCell :=
  [.Trap, .Empty, .Empty, .Hint, .Hint, .Hint, .Hint, .Hint, .Hint, .Hint]

/-- `snm_rand_utils::range_rng::select_rand`: uniform choice of one slot of
the list. -/
def select_rand {S : Type} (l : List RandomCell) (rng : RangeRng S) (s : S) :
    RandomCell × S :=
  let is' := rng.gen_range s l.length
  (l.getD is'.1 RandomCell.Empty, is'.2)

/-- Source `game::CellTimer`: one queued reveal-expiry record. -/
structure CellTimer where
  x : Int
  y : Int
  timer : Timer
deriving DecidableEq, Repr

/-- Source `game::GameGrid`.  `cells` is the flat row-major cell store;
`timers` is the reveal-expiry FIFO (head = oldest). -/
structure GameGrid where
  cells : List GridCell
  timers : List CellTimer
  max_revealed_cells : Nat
  width : Int
  height : Int
deriving DecidableEq, Repr

/-- The body of the generation loop of `GameGrid::new` for one cell at
`(col, row)`: pick the item and advance the generator state. -/
def genItem {S : Type} (rng : RangeRng S) (solution_cell : Int × Int)
    (col row : Int) (s : S) : GridItem × S :=
  let x_displacement := col - solution_cell.1
  let y_displacement := row - solution_cell.2
  if x_displacement = 0 ∧ y_displacement = 0 then
    (GridItem.Solution, s)
  else
    let rs := select_rand RANDOM_CELL_DISTRIBUTION rng s
    (match rs.1 with
      | RandomCell.Empty => GridItem.Empty
      | RandomCell.Trap => GridItem.Trap TrapType.Confusion
      | RandomCell.Hint =>
          GridItem.Hint (displacement_to_hint_direction x_displacement y_displacement),
     rs.2)

/-- The nested row/column generation loops of `GameGrid::new`, as structural
recursion over the list of visited coordinates (in visit order). -/
def buildCells {S : Type} (rng : RangeRng S) (solution_cell : Int × Int) :
    List (Int × Int) → S → List GridCell × S
  | [], s => ([], s)
  | p :: rest, s =>
    let is' := genItem rng solution_cell p.1 p.2 s
    let cs := buildCells rng solution_cell rest is'.2
    ({ item := is'.1, revealed := false } :: cs.1, cs.2)

/-- The coordinates visited by `for row in 0..height { for col in 0..width }`,
flattened: iteration `k` of the combined loop handles column `k % width` of
row `k / width`. -/
def coordList (width height : Int) : List (Int × Int) :=
  (List.range (height.toNat * width.toNat)).map
    (fun k => (Int.ofNat (k % width.toNat), Int.ofNat (k / width.toNat)))

/-- Source `GameGrid::new`: draw the solution coordinates, then generate every
cell in row-major order. -/
def GameGrid.new {S : Type} (width height : Int) (max_revealed_cells : Nat)
    (rng : RangeRng S) (s : S) : GameGrid × S :=
  let sx := rng.gen_range s width.toNat
  let sy := rng.gen_range sx.2 height.toNat
  let solution_cell : Int × Int := (Int.ofNat sx.1, Int.ofNat sy.1)
  let cs := buildCells rng solution_cell (coordList width height) sy.2
  ({ cells := cs.1, timers := [], max_revealed_cells := max_revealed_cells,
     width := width, height := height }, cs.2)

/-- The solution coordinates drawn by the first two `gen_range` calls of
`GameGrid::new`. -/
def drawnSolution {S : Type} (width height : Int) (rng : RangeRng S) (s : S) :
    Int × Int :=
  let sx := rng.gen_range s width.toNat
  let sy := rng.gen_range sx.2 height.toNat
  (Int.ofNat sx.1, Int.ofNat sy.1)

/-- Source `GameGrid::cell`: bounds-checked read at `(x, y)`. -/
def GameGrid.cell (g : GameGrid) (x y : Int) : Option GridCell :=
  if x < 0 ∨ x ≥ g.width ∨ y < 0 ∨ y ≥ g.height then none
  else g.cells[(g.width * y + x).toNat]?

/-- Source `GameGrid::try_reveal`: reveal the cell at `(x, y)` (if in bounds)
and append a fresh 4-second expiry record for it. -/
def GameGrid.try_reveal (g : GameGrid) (x y : Int) (now : Nat) :
    Option GridItem × GameGrid :=
  match g.cell x y with
  | none => (none, g)
  | some c =>
    (some c.item,
     { g with
        cells := g.cells.set (g.width * y + x).toNat { c with revealed := true },
        timers := g.timers ++
          [{ x := x, y := y, timer := { start_time := now, duration := 4 } }] })

/-- Source `GameGrid::reset_expired_cells`: at most one eviction per call.
`none` models the `unwrap` panicking because the popped record's coordinates
miss the grid. -/
def GameGrid.reset_expired_cells (g : GameGrid) (now : Nat) : Option GameGrid :=
  match g.timers with
  | [] => some g
  | oldest :: rest =>
    if g.max_revealed_cells < g.timers.length ∨ oldest.timer.finished now = true then
      match g.cell oldest.x oldest.y with
      | none => none
      | some c =>
        some { g with
          timers := rest,
          cells := g.cells.set (g.width * oldest.y + oldest.x).toNat
            { c with revealed := false } }
    else some g

theorem genItem_eq_solution_iff {S : Type} (rng : RangeRng S) (sol : Int × Int)
    (col row : Int) (s : S) :
    (genItem rng sol col row s).1 = GridItem.Solution ↔ col = sol.1 ∧ row = sol.2 := by
  by_cases hc : col - sol.1 = 0 ∧ row - sol.2 = 0
  · refine ⟨fun _ => ⟨by omega, by omega⟩, fun _ => ?_⟩
    simp [genItem, if_pos hc]
  · simp only [genItem, if_neg hc]
    constructor
    · intro hS
      exfalso
      rcases hsel : (select_rand RANDOM_CELL_DISTRIBUTION rng s).1 with _ | _ | _ <;>
        rw [hsel] at hS <;> simp at hS
    · intro h2
      exact absurd ⟨by omega, by omega⟩ hc

theorem buildCells_length {S : Type} (rng : RangeRng S) (sol : Int × Int) :
    ∀ (ps : List (Int × Int)) (s : S),
      (buildCells rng sol ps s).1.length = ps.length
  | [], _ => rfl
  | _ :: rest, s => by
    simp only [buildCells, List.length_cons]
    rw [buildCells_length rng sol rest]

theorem buildCells_getElem? {S : Type} (rng : RangeRng S) (sol : Int × Int) :
    ∀ (ps : List (Int × Int)) (s : S) (i : Nat) (p : Int × Int),
      ps[i]? = some p →
      ∃ c : GridCell, (buildCells rng sol ps s).1[i]? = some c ∧
        c.revealed = false ∧
        (c.item = GridItem.Solution ↔ p.1 = sol.1 ∧ p.2 = sol.2)
  | [], _, i, p, hp => by simp at hp
  | q :: rest, s, 0, p, hp => by
    simp only [List.getElem?_cons_zero, Option.some.injEq] at hp
    subst hp
    refine ⟨{ item := (genItem rng sol q.1 q.2 s).1, revealed := false }, ?_, rfl,
      genItem_eq_solution_iff rng sol q.1 q.2 s⟩
    simp only [buildCells, List.getElem?_cons_zero]
  | q :: rest, s, i + 1, p, hp => by
    simp only [List.getElem?_cons_succ] at hp
    simpa only [buildCells, List.getElem?_cons_succ] using
      buildCells_getElem? rng sol rest
        (genItem rng sol q.1 q.2 s).2 i p hp

theorem buildCells_countP_solution {S : Type} (rng : RangeRng S) (sol : Int × Int) :
    ∀ (ps : List (Int × Int)) (s : S),
      (buildCells rng sol ps s).1.countP (fun c => c.item == GridItem.Solution) =
        ps.countP (fun p => p.1 == sol.1 && p.2 == sol.2)
  | [], _ => rfl
  | p :: rest, s => by
    simp only [buildCells, List.countP_cons]
    rw [buildCells_countP_solution rng sol rest]
    congr 1
    have hiff := genItem_eq_solution_iff rng sol p.1 p.2 s
    by_cases hp : p.1 = sol.1 ∧ p.2 = sol.2
    · rw [if_pos (by simpa using hiff.mpr hp), if_pos (by simpa using hp)]
    · rw [if_neg (by simpa using fun hS => hp (hiff.mp hS)),
        if_neg (by simpa using fun a b => hp ⟨a, b⟩)]

/-- Row-major flattening: `k` ranges over one full sweep of the nested loops
exactly when its coordinate pair does. -/
theorem rowmajor_index_eq (w sx sy k : Nat) (hsx : sx < w) :
    (k % w = sx ∧ k / w = sy) ↔ k = w * sy + sx := by
  constructor
  · rintro ⟨h1, h2⟩
    have h3 := Nat.div_add_mod k w
    rw [h1, h2] at h3
    omega
  · rintro rfl
    have hw : 0 < w := by omega
    constructor
    · rw [Nat.add_comm, Nat.add_mul_mod_self_left, Nat.mod_eq_of_lt hsx]
    · rw [Nat.add_comm, Nat.add_mul_div_left sx sy hw, Nat.div_eq_of_lt hsx,
        Nat.zero_add]

theorem coordList_length (width height : Int) :
    (coordList width height).length = height.toNat * width.toNat := by
  simp [coordList]

theorem coordList_getElem? (width height : Int) (k : Nat)
    (hk : k < height.toNat * width.toNat) :
    (coordList width height)[k]? =
      some (Int.ofNat (k % width.toNat), Int.ofNat (k / width.toNat)) := by
  simp [coordList, List.getElem?_range hk]

theorem coordList_countP (width height : Int) (sx sy : Nat)
    (hsx : sx < width.toNat) (hsy : sy < height.toNat) :
    (coordList width height).countP
        (fun p => p.1 == Int.ofNat sx && p.2 == Int.ofNat sy) = 1 := by
  rw [coordList, List.countP_map]
  have hcongr : ∀ k ∈ List.range (height.toNat * width.toNat),
      ((fun p : Int × Int => p.1 == Int.ofNat sx && p.2 == Int.ofNat sy) ∘
        (fun k => (Int.ofNat (k % width.toNat), Int.ofNat (k / width.toNat)))) k ↔
        (k == width.toNat * sy + sx) = true := by
    intro k _
    simp only [Function.comp_apply, Bool.and_eq_true, beq_iff_eq, Int.ofNat_eq_coe,
      Nat.cast_inj]
    exact rowmajor_index_eq width.toNat sx sy k hsx
  rw [List.countP_congr hcongr, ← List.count_eq_countP]
  apply List.count_eq_one_of_mem (List.nodup_range _)
  rw [List.mem_range]
  calc width.toNat * sy + sx < width.toNat * (sy + 1) := by rw [Nat.mul_succ]; omega
    _ ≤ width.toNat * height.toNat := Nat.mul_le_mul_left _ (by omega)
    _ = height.toNat * width.toNat := Nat.mul_comm _ _

theorem index_toNat (width : Int) (hw : 0 ≤ width) (a b : Nat) :
    (width * Int.ofNat b + Int.ofNat a).toNat = width.toNat * b + a := by
  obtain ⟨w, rfl⟩ := Int.eq_ofNat_of_zero_le hw
  simp only [Int.ofNat_eq_coe, Int.toNat_natCast]
  norm_cast

/-- Exactly one `Solution` in the freshly generated flat cell list, at the
row-major index of the drawn solution coordinates. -/
theorem buildCells_coordList_solution {S : Type} (width height : Int)
    (rng : RangeRng S) (s : S) (sxn syn : Nat)
    (hsx : sxn < width.toNat) (hsy : syn < height.toNat) :
    ((buildCells rng (Int.ofNat sxn, Int.ofNat syn) (coordList width height) s).1.countP
        (fun c => c.item == GridItem.Solution) = 1) ∧
    ((buildCells rng (Int.ofNat sxn, Int.ofNat syn) (coordList width height)
        s).1[width.toNat * syn + sxn]? =
      some { item := GridItem.Solution, revealed := false }) ∧
    (∀ k c,
      (buildCells rng (Int.ofNat sxn, Int.ofNat syn) (coordList width height) s).1[k]? =
          some c →
        k ≠ width.toNat * syn + sxn → c.item ≠ GridItem.Solution) := by
  have hklt : width.toNat * syn + sxn < height.toNat * width.toNat := by
    calc width.toNat * syn + sxn < width.toNat * (syn + 1) := by rw [Nat.mul_succ]; omega
      _ ≤ width.toNat * height.toNat := Nat.mul_le_mul_left _ (by omega)
      _ = height.toNat * width.toNat := Nat.mul_comm _ _
  refine ⟨?_, ?_, ?_⟩
  · rw [buildCells_countP_solution]
    exact coordList_countP width height sxn syn hsx hsy
  · have hcoord := coordList_getElem? width height _ hklt
    have hmod : (width.toNat * syn + sxn) % width.toNat = sxn ∧
        (width.toNat * syn + sxn) / width.toNat = syn :=
      (rowmajor_index_eq width.toNat sxn syn _ hsx).mpr rfl
    rw [hmod.1, hmod.2] at hcoord
    obtain ⟨c, hc, hrev, hiff⟩ := buildCells_getElem? rng (Int.ofNat sxn, Int.ofNat syn)
      (coordList width height) s _ _ hcoord
    have hitem : c.item = GridItem.Solution := hiff.mpr ⟨rfl, rfl⟩
    rw [hc]
    cases c
    simp_all
  · intro k c hkc hkne hitem
    have hlen := buildCells_length rng (Int.ofNat sxn, Int.ofNat syn)
      (coordList width height) s
    have hklen : k < (coordList width height).length := by
      by_contra hge
      rw [List.getElem?_eq_none (by omega)] at hkc
      exact Option.noConfusion hkc
    rw [coordList_length] at hklen
    have hcoord := coordList_getElem? width height k hklen
    obtain ⟨c', hc', hrev', hiff'⟩ := buildCells_getElem? rng (Int.ofNat sxn, Int.ofNat syn)
      (coordList width height) s _ _ hcoord
    rw [hkc] at hc'
    obtain rfl : c = c' := Option.some.inj hc'
    obtain ⟨h1, h2⟩ := hiff'.mp hitem
    simp only at h1 h2
    have e1 : k % width.toNat = sxn := Int.ofNat.inj h1
    have e2 : k / width.toNat = syn := Int.ofNat.inj h2
    exact hkne ((rowmajor_index_eq width.toNat sxn syn k hsx).mp ⟨e1, e2⟩)

/-- C1: for every positive width and height and every random source honouring
the `gen_range` contract, `GameGrid::new` produces a grid with exactly one
`Solution` cell, located at the drawn solution coordinates; any cell at other
coordinates is not a `Solution` (hence a `Hint`, `Trap`, or `Empty`). -/
theorem c1_exactly_one_solution {S : Type} (width height : Int) (m : Nat)
    (rng : RangeRng S) (s : S) (hw : 0 < width) (hh : 0 < height)
    (hrng : RngOk rng) :
    ((GameGrid.new width height m rng s).1.cells.countP
        (fun c => c.item == GridItem.Solution) = 1) ∧
    ((GameGrid.new width height m rng s).1.cell (drawnSolution width height rng s).1
        (drawnSolution width height rng s).2 =
      some { item := GridItem.Solution, revealed := false }) ∧
    (∀ x y c, (GameGrid.new width height m rng s).1.cell x y = some c →
      ¬(x = (drawnSolution width height rng s).1 ∧
          y = (drawnSolution width height rng s).2) →
      c.item ≠ GridItem.Solution) := by
  have hsx : (rng.gen_range s width.toNat).1 < width.toNat := hrng _ _ (by omega)
  have hsy : (rng.gen_range (rng.gen_range s width.toNat).2 height.toNat).1 <
      height.toNat := hrng _ _ (by omega)
  have hmain := buildCells_coordList_solution width height rng
    (rng.gen_range (rng.gen_range s width.toNat).2 height.toNat).2
    (rng.gen_range s width.toNat).1
    (rng.gen_range (rng.gen_range s width.toNat).2 height.toNat).1 hsx hsy
  have hcells : (GameGrid.new width height m rng s).1.cells =
      (buildCells rng
        (Int.ofNat (rng.gen_range s width.toNat).1,
          Int.ofNat (rng.gen_range (rng.gen_range s width.toNat).2 height.toNat).1)
        (coordList width height)
        (rng.gen_range (rng.gen_range s width.toNat).2 height.toNat).2).1 := rfl
  have hwidth : (GameGrid.new width height m rng s).1.width = width := rfl
  have hheight : (GameGrid.new width height m rng s).1.height = height := rfl
  have hsol1 : (drawnSolution width height rng s).1 =
      Int.ofNat (rng.gen_range s width.toNat).1 := rfl
  have hsol2 : (drawnSolution width height rng s).2 =
      Int.ofNat (rng.gen_range (rng.gen_range s width.toNat).2 height.toNat).1 := rfl
  refine ⟨by rw [hcells]; exact hmain.1, ?_, ?_⟩
  · rw [GameGrid.cell, hwidth, hheight, hcells, hsol1, hsol2]
    rw [if_neg (by simp only [Int.ofNat_eq_coe]; omega)]
    rw [index_toNat width (by omega)]
    exact hmain.2.1
  · intro x y c hcell hne hitem
    rw [GameGrid.cell, hwidth, hheight, hcells] at hcell
    by_cases hb : x < 0 ∨ x ≥ width ∨ y < 0 ∨ y ≥ height
    · rw [if_pos hb] at hcell
      exact Option.noConfusion hcell
    · rw [if_neg hb] at hcell
      have hxe : x = Int.ofNat x.toNat := by simp only [Int.ofNat_eq_coe]; omega
      have hye : y = Int.ofNat y.toNat := by simp only [Int.ofNat_eq_coe]; omega
      rw [hxe, hye, index_toNat width (by omega)] at hcell
      refine hmain.2.2 _ c hcell ?_ hitem
      intro hkeq
      have hxlt : x.toNat < width.toNat := by omega
      have hx' : (width.toNat * y.toNat + x.toNat) % width.toNat = x.toNat ∧
          (width.toNat * y.toNat + x.toNat) / width.toNat = y.toNat :=
        (rowmajor_index_eq width.toNat x.toNat y.toNat _ hxlt).mpr rfl
      have hs' : (width.toNat * y.toNat + x.toNat) % width.toNat =
            (rng.gen_range s width.toNat).1 ∧
          (width.toNat * y.toNat + x.toNat) / width.toNat =
            (rng.gen_range (rng.gen_range s width.toNat).2 height.toNat).1 :=
        (rowmajor_index_eq width.toNat _ _ _ hsx).mpr hkeq
      refine hne ⟨?_, ?_⟩
      · rw [hsol1]
        simp only [Int.ofNat_eq_coe]
        omega
      · rw [hsol2]
        simp only [Int.ofNat_eq_coe]
        omega

/-- C1 witness: a concrete 2 by 2 grid generated from a constant generator
satisfies the conclusion. -/
theorem c1_exactly_one_solution_witness :
    ((GameGrid.new 2 2 6 { gen_range := fun s _ => (0, s) } ()).1.cells.countP
        (fun c => c.item == GridItem.Solution) = 1) :=
  (c1_exactly_one_solution 2 2 6 { gen_range := fun s _ => (0, s) } ()
    (by decide) (by decide) (fun _ n hn => hn)).1

/-- Well-formedness of the flat store: the backing sequence really has
`width * height` cells (true of every grid built by `GameGrid::new`). -/
def WFCells (g : GameGrid) : Prop :=
  g.cells.length = (g.width * g.height).toNat

instance (g : GameGrid) : Decidable (WFCells g) := by
  unfold WFCells
  infer_instance

/-- In-bounds coordinates, as the source's bounds check states them. -/
def InBounds (g : GameGrid) (x y : Int) : Prop :=
  ¬(x < 0 ∨ x ≥ g.width ∨ y < 0 ∨ y ≥ g.height)

instance (g : GameGrid) (x y : Int) : Decidable (InBounds g x y) := by
  unfold InBounds
  infer_instance

theorem flatIndex_lt (w h x y : Int) (hx0 : 0 ≤ x) (hx : x < w) (hy0 : 0 ≤ y)
    (hy : y < h) : (w * y + x).toNat < (w * h).toNat := by
  have h1 : w * (y + 1) = w * y + w := by ring
  have h2 : w * (y + 1) ≤ w * h := by
    apply mul_le_mul_of_nonneg_left (by omega) (by omega)
  have h0 : 0 ≤ w * y := mul_nonneg (by omega) hy0
  omega

theorem flatIndex_inj (w x1 y1 x2 y2 : Int) (hx10 : 0 ≤ x1) (hx1 : x1 < w)
    (hx20 : 0 ≤ x2) (hx2 : x2 < w) (hy10 : 0 ≤ y1) (hy20 : 0 ≤ y2)
    (he : (w * y1 + x1).toNat = (w * y2 + x2).toNat) : x1 = x2 ∧ y1 = y2 := by
  have h01 : 0 ≤ w * y1 := mul_nonneg (by omega) hy10
  have h02 : 0 ≤ w * y2 := mul_nonneg (by omega) hy20
  have key : ∀ a b : Int, 0 ≤ a → a < w → (a + w * b) % w = a := fun a b h0' h1' => by
    rw [Int.add_mul_emod_self_left, Int.emod_eq_of_lt h0' h1']
  have k1 := key x1 y1 hx10 hx1
  have k2 := key x2 y2 hx20 hx2
  have hcomm : x1 + w * y1 = x2 + w * y2 := by omega
  rw [hcomm] at k1
  have hx12 : x1 = x2 := by omega
  refine ⟨hx12, ?_⟩
  have hmul : w * y1 = w * y2 := by omega
  exact mul_left_cancel₀ (by omega) hmul

theorem index_lt_length (g : GameGrid) (x y : Int) (hWF : WFCells g)
    (hin : InBounds g x y) : (g.width * y + x).toNat < g.cells.length := by
  rw [hWF]
  unfold InBounds at hin
  exact flatIndex_lt g.width g.height x y (by omega) (by omega) (by omega) (by omega)

theorem cell_eq_getElem? (g : GameGrid) (x y : Int) (hin : InBounds g x y) :
    g.cell x y = g.cells[(g.width * y + x).toNat]? := by
  rw [GameGrid.cell, if_neg hin]

theorem cell_isSome_of_inBounds (g : GameGrid) (x y : Int) (hWF : WFCells g)
    (hin : InBounds g x y) : (g.cell x y).isSome := by
  rw [cell_eq_getElem? g x y hin,
    List.getElem?_eq_getElem (index_lt_length g x y hWF hin)]
  rfl

/-- C8: `try_reveal` returns `none` and leaves the grid unchanged when
`(x, y)` is out of bounds; in bounds it sets that cell's `revealed` flag to
`true` (idempotently), returns the cell's content, leaves every other cell
unchanged, and appends a fresh 4-second expiry record for `(x, y)` to the
tail of the window — also on repeated reveals of the same cell. -/
theorem c8_try_reveal (g : GameGrid) (x y : Int) (now : Nat) (hWF : WFCells g) :
    (¬InBounds g x y → g.try_reveal x y now = (none, g)) ∧
    (InBounds g x y →
      ∃ c, g.cell x y = some c ∧
        (g.try_reveal x y now).1 = some c.item ∧
        (g.try_reveal x y now).2.cell x y = some { item := c.item, revealed := true } ∧
        (∀ x' y', ¬(x' = x ∧ y' = y) →
          (g.try_reveal x y now).2.cell x' y' = g.cell x' y') ∧
        (g.try_reveal x y now).2.timers =
          g.timers ++ [{ x := x, y := y, timer := { start_time := now, duration := 4 } }] ∧
        (g.try_reveal x y now).2.width = g.width ∧
        (g.try_reveal x y now).2.height = g.height ∧
        (g.try_reveal x y now).2.max_revealed_cells = g.max_revealed_cells) := by
  constructor
  · intro hout
    have hcond : x < 0 ∨ x ≥ g.width ∨ y < 0 ∨ y ≥ g.height := by
      by_contra hc
      exact hout hc
    have hcell : g.cell x y = none := by rw [GameGrid.cell, if_pos hcond]
    simp only [GameGrid.try_reveal, hcell]
  · intro hin
    obtain ⟨c, hc⟩ := Option.isSome_iff_exists.mp (cell_isSome_of_inBounds g x y hWF hin)
    refine ⟨c, hc, ?_⟩
    simp only [GameGrid.try_reveal, hc]
    refine ⟨?_, ?_, ?_, ?_, ?_, ?_, ?_⟩
    · trivial
    · rw [GameGrid.cell]
      dsimp only
      rw [if_neg hin, List.getElem?_set_self (index_lt_length g x y hWF hin)]
    · intro x' y' hne
      by_cases hin' : InBounds g x' y'
      · rw [GameGrid.cell, GameGrid.cell]
        dsimp only
        rw [if_neg hin', if_neg hin']
        apply List.getElem?_set_ne
        intro heq
        unfold InBounds at hin hin'
        obtain ⟨hx, hy⟩ := flatIndex_inj g.width x y x' y' (by omega) (by omega)
          (by omega) (by omega) (by omega) (by omega) heq
        exact hne ⟨hx.symm, hy.symm⟩
      · have hcond' : x' < 0 ∨ x' ≥ g.width ∨ y' < 0 ∨ y' ≥ g.height := by
          by_contra hcc
          exact hin' hcc
        rw [GameGrid.cell, GameGrid.cell]
        dsimp only
        rw [if_pos hcond', if_pos hcond']
    · trivial
    · trivial
    · trivial
    · trivial

/-- C8 witness: revealing the single cell of a concrete 1 by 1 grid. -/
theorem c8_try_reveal_witness :
    ∃ c, ({ cells := [{ item := GridItem.Empty, revealed := false }], timers := [],
            max_revealed_cells := 6, width := 1, height := 1 } : GameGrid).cell 0 0 =
        some c ∧
      (({ cells := [{ item := GridItem.Empty, revealed := false }], timers := [],
          max_revealed_cells := 6, width := 1, height := 1 } : GameGrid).try_reveal
          0 0 7).1 = some c.item :=
  have h := (c8_try_reveal
    { cells := [{ item := GridItem.Empty, revealed := false }], timers := [],
      max_revealed_cells := 6, width := 1, height := 1 } 0 0 7 (by decide)).2
    (by decide)
  ⟨h.choose, h.choose_spec.1, h.choose_spec.2.1⟩

/-- C5: each `reset_expired_cells` call performs at most one eviction: with a
non-empty queue whose length exceeds the capacity, or whose head timer is
finished, exactly the head record is removed and its cell un-revealed, all
other cells unchanged; otherwise the grid is returned unchanged. -/
theorem c5_reset_at_most_one_eviction (g : GameGrid) (now : Nat) (hWF : WFCells g)
    (hrec : ∀ t ∈ g.timers, InBounds g t.x t.y) :
    (g.timers = [] → g.reset_expired_cells now = some g) ∧
    (∀ t rest, g.timers = t :: rest →
      ((g.max_revealed_cells < g.timers.length ∨ t.timer.finished now = true) →
        ∃ g', g.reset_expired_cells now = some g' ∧
          g'.timers = rest ∧
          g'.cell t.x t.y = (g.cell t.x t.y).map (fun c => { c with revealed := false }) ∧
          (∀ x y, ¬(x = t.x ∧ y = t.y) → g'.cell x y = g.cell x y) ∧
          g'.width = g.width ∧ g'.height = g.height ∧
          g'.max_revealed_cells = g.max_revealed_cells) ∧
      (¬(g.max_revealed_cells < g.timers.length ∨ t.timer.finished now = true) →
        g.reset_expired_cells now = some g)) := by
  constructor
  · intro hnil
    rw [GameGrid.reset_expired_cells, hnil]
  · intro t rest htimers
    have hin : InBounds g t.x t.y := hrec t (htimers ▸ List.mem_cons_self t rest)
    obtain ⟨c, hc⟩ := Option.isSome_iff_exists.mp
      (cell_isSome_of_inBounds g t.x t.y hWF hin)
    constructor
    · intro hcond
      rw [htimers] at hcond
      refine ⟨{ g with
          timers := rest,
          cells := g.cells.set (g.width * t.y + t.x).toNat
            { c with revealed := false } }, ?_, rfl, ?_, ?_, rfl, rfl, rfl⟩
      · simp only [GameGrid.reset_expired_cells, htimers]
        rw [if_pos hcond, hc]
      · rw [hc, GameGrid.cell]
        dsimp only
        rw [if_neg hin, List.getElem?_set_self (index_lt_length g t.x t.y hWF hin)]
        rfl
      · intro x y hne
        by_cases hin' : InBounds g x y
        · rw [GameGrid.cell, GameGrid.cell]
          dsimp only
          rw [if_neg hin', if_neg hin']
          apply List.getElem?_set_ne
          intro heq
          unfold InBounds at hin hin'
          obtain ⟨hx, hy⟩ := flatIndex_inj g.width t.x t.y x y (by omega) (by omega)
            (by omega) (by omega) (by omega) (by omega) heq
          exact hne ⟨hx.symm, hy.symm⟩
        · have hcond' : x < 0 ∨ x ≥ g.width ∨ y < 0 ∨ y ≥ g.height := by
            by_contra hcc
            exact hin' hcc
          rw [GameGrid.cell, GameGrid.cell]
          dsimp only
          rw [if_pos hcond', if_pos hcond']
    · intro hcond
      rw [htimers] at hcond
      simp only [GameGrid.reset_expired_cells, htimers]
      rw [if_neg hcond]

/-- C5 witness: a concrete grid with an empty queue is returned unchanged. -/
theorem c5_reset_at_most_one_eviction_witness :
    ({ cells := [{ item := GridItem.Empty, revealed := false }], timers := [],
       max_revealed_cells := 6, width := 1, height := 1 } : GameGrid).reset_expired_cells
        3 =
      some { cells := [{ item := GridItem.Empty, revealed := false }], timers := [],
             max_revealed_cells := 6, width := 1, height := 1 } :=
  (c5_reset_at_most_one_eviction
    { cells := [{ item := GridItem.Empty, revealed := false }], timers := [],
      max_revealed_cells := 6, width := 1, height := 1 } 3 (by decide)
    (by intro t ht; cases ht)).1 rfl

theorem getElem?_isSome_iff {α : Type} (l : List α) (i : Nat) :
    l[i]?.isSome = true ↔ i < l.length := by
  constructor
  · intro hs
    by_contra hlt
    rw [List.getElem?_eq_none (by omega)] at hs
    exact Bool.noConfusion hs
  · intro hlen
    rw [List.getElem?_eq_getElem hlen]
    rfl

theorem cell_isSome_iff (g : GameGrid) (x y : Int) :
    (g.cell x y).isSome = true ↔
      InBounds g x y ∧ (g.width * y + x).toNat < g.cells.length := by
  rw [GameGrid.cell]
  by_cases hin : InBounds g x y
  · rw [if_neg hin, getElem?_isSome_iff]
    exact ⟨fun h => ⟨hin, h⟩, fun h => h.2⟩
  · have hcond : x < 0 ∨ x ≥ g.width ∨ y < 0 ∨ y ≥ g.height := by
      by_contra hc
      exact hin hc
    rw [if_pos hcond]
    simp only [Option.isSome_none, Bool.false_eq_true, false_iff]
    intro h
    exact hin h.1

/-- Internal invariant of the reveal-expiry window: every queued record still
addresses a readable cell of the grid. -/
def TimersOk (g : GameGrid) : Prop :=
  ∀ t ∈ g.timers, (g.cell t.x t.y).isSome = true

instance (g : GameGrid) : Decidable (TimersOk g) := by
  unfold TimersOk
  infer_instance

theorem cell_isSome_of_fields_eq (g g' : GameGrid) (x y : Int)
    (hw : g'.width = g.width) (hh : g'.height = g.height)
    (hl : g'.cells.length = g.cells.length)
    (h : (g.cell x y).isSome = true) : (g'.cell x y).isSome = true := by
  rw [cell_isSome_iff] at h ⊢
  unfold InBounds at h ⊢
  rw [hw, hh, hl]
  exact h

/-- Field-level description of `try_reveal`: the shape of the store and the
grid dimensions never change, and a record is appended exactly when the
revealed cell was readable. -/
theorem try_reveal_fields (g : GameGrid) (x y : Int) (now : Nat) :
    (g.try_reveal x y now).2.width = g.width ∧
    (g.try_reveal x y now).2.height = g.height ∧
    (g.try_reveal x y now).2.max_revealed_cells = g.max_revealed_cells ∧
    (g.try_reveal x y now).2.cells.length = g.cells.length ∧
    ((g.try_reveal x y now).2.timers = g.timers ∨
      ((g.try_reveal x y now).2.timers =
          g.timers ++ [{ x := x, y := y, timer := { start_time := now, duration := 4 } }] ∧
        (g.cell x y).isSome = true)) := by
  rcases hc : g.cell x y with _ | c <;> simp only [GameGrid.try_reveal, hc]
  · refine ⟨?_, ?_, ?_, ?_, Or.inl ?_⟩ <;> trivial
  · refine ⟨?_, ?_, ?_, ?_, Or.inr ⟨?_, ?_⟩⟩ <;> first | trivial | simp [hc]

theorem timersOk_try_reveal (g : GameGrid) (x y : Int) (now : Nat)
    (h : TimersOk g) : TimersOk (g.try_reveal x y now).2 := by
  obtain ⟨hw, hh, _, hl, htimers⟩ := try_reveal_fields g x y now
  intro t ht
  apply cell_isSome_of_fields_eq g _ t.x t.y hw hh hl
  rcases htimers with he | ⟨he, hsome⟩
  · exact h t (he ▸ ht)
  · rw [he] at ht
    rcases List.mem_append.mp ht with hold | hnew
    · exact h t hold
    · rcases List.mem_singleton.mp hnew with rfl
      exact hsome

/-- Field-level description of a non-panicking `reset_expired_cells` call:
dimensions and capacity are unchanged, the store keeps its length, and the
queue either stays as it is or loses exactly its head. -/
theorem reset_some_spec (g : GameGrid) (now : Nat) (g' : GameGrid)
    (h : g.reset_expired_cells now = some g') :
    g'.width = g.width ∧ g'.height = g.height ∧
    g'.max_revealed_cells = g.max_revealed_cells ∧
    g'.cells.length = g.cells.length ∧
    (g' = g ∨ ∃ t, g.timers = t :: g'.timers) ∧
    (g.max_revealed_cells < g.timers.length →
      g'.timers.length + 1 = g.timers.length) := by
  rcases htimers : g.timers with _ | ⟨t, rest⟩
  · simp only [GameGrid.reset_expired_cells, htimers, Option.some.injEq] at h
    subst h
    refine ⟨rfl, rfl, rfl, rfl, Or.inl rfl, ?_⟩
    intro hlt
    simp at hlt
  · simp only [GameGrid.reset_expired_cells, htimers] at h
    by_cases hcond : g.max_revealed_cells < (t :: rest).length ∨
        t.timer.finished now = true
    · rw [if_pos hcond] at h
      rcases hc : g.cell t.x t.y with _ | c
      · rw [hc] at h
        exact Option.noConfusion h
      · rw [hc, Option.some.injEq] at h
        subst h
        exact ⟨rfl, rfl, rfl, by simp, Or.inr ⟨t, rfl⟩, fun _ => rfl⟩
    · rw [if_neg hcond, Option.some.injEq] at h
      subst h
      refine ⟨rfl, rfl, rfl, rfl, Or.inl rfl, ?_⟩
      intro hlt
      exact absurd (Or.inl hlt) hcond

theorem reset_isSome_of_timersOk (g : GameGrid) (now : Nat) (h : TimersOk g) :
    (g.reset_expired_cells now).isSome = true := by
  rcases htimers : g.timers with _ | ⟨t, rest⟩
  · simp only [GameGrid.reset_expired_cells, htimers]
    rfl
  · simp only [GameGrid.reset_expired_cells, htimers]
    by_cases hcond : g.max_revealed_cells < (t :: rest).length ∨
        t.timer.finished now = true
    · rw [if_pos hcond]
      obtain ⟨c, hc⟩ := Option.isSome_iff_exists.mp
        (h t (htimers ▸ List.mem_cons_self t rest))
      rw [hc]
      rfl
    · rw [if_neg hcond]
      rfl

theorem timersOk_reset (g g' : GameGrid) (now : Nat) (h : TimersOk g)
    (hr : g.reset_expired_cells now = some g') : TimersOk g' := by
  obtain ⟨hw, hh, _, hl, htimers, _⟩ := reset_some_spec g now g' hr
  intro t ht
  apply cell_isSome_of_fields_eq g g' t.x t.y hw hh hl
  rcases htimers with rfl | ⟨t0, he⟩
  · exact h t ht
  · exact h t (he ▸ List.mem_cons_of_mem t0 ht)

/-- The reveal/tick interface of `GameGrid` as callers drive it. -/
inductive GridOp
  | reveal (x y : Int) (now : Nat)
  | tick (now : Nat)

/-- Apply one operation; a (never reached) panicking tick is absorbed as a
no-op so that traces stay total. -/
def applyGridOp (g : GameGrid) : GridOp → GameGrid
  | .reveal x y now => (g.try_reveal x y now).2
  | .tick now => (g.reset_expired_cells now).getD g

theorem timersOk_applyGridOp (g : GameGrid) (op : GridOp) (h : TimersOk g) :
    TimersOk (applyGridOp g op) := by
  cases op with
  | reveal x y now => exact timersOk_try_reveal g x y now h
  | tick now =>
    obtain ⟨g', hg'⟩ := Option.isSome_iff_exists.mp (reset_isSome_of_timersOk g now h)
    rw [applyGridOp, hg', Option.getD_some]
    exact timersOk_reset g g' now h hg'

theorem timersOk_foldl (g : GameGrid) (ops : List GridOp) (h : TimersOk g) :
    TimersOk (ops.foldl applyGridOp g) := by
  induction ops generalizing g with
  | nil => exact h
  | cons op ops ih => exact ih _ (timersOk_applyGridOp g op h)

theorem fields_applyGridOp (g : GameGrid) (op : GridOp) :
    (applyGridOp g op).width = g.width ∧ (applyGridOp g op).height = g.height ∧
    (applyGridOp g op).max_revealed_cells = g.max_revealed_cells := by
  cases op with
  | reveal x y now =>
    obtain ⟨hw, hh, hm, _, _⟩ := try_reveal_fields g x y now
    exact ⟨hw, hh, hm⟩
  | tick now =>
    rcases hr : g.reset_expired_cells now with _ | g'
    · simp [applyGridOp, hr]
    · obtain ⟨hw, hh, hm, _, _, _⟩ := reset_some_spec g now g' hr
      simp [applyGridOp, hr, hw, hh, hm]

theorem fields_foldl_gridOps (g : GameGrid) (ops : List GridOp) :
    (ops.foldl applyGridOp g).width = g.width ∧
    (ops.foldl applyGridOp g).height = g.height ∧
    (ops.foldl applyGridOp g).max_revealed_cells = g.max_revealed_cells := by
  induction ops generalizing g with
  | nil => exact ⟨rfl, rfl, rfl⟩
  | cons op ops ih =>
    rw [List.foldl_cons]
    obtain ⟨h1, h2, h3⟩ := fields_applyGridOp g op
    obtain ⟨k1, k2, k3⟩ := ih (applyGridOp g op)
    exact ⟨k1.trans h1, k2.trans h2, k3.trans h3⟩

/-- C10: for every grid produced by `GameGrid::new` and every sequence of
reveal and tick calls on it, each queued expiry record holds in-bounds
coordinates, so the `unwrap` inside `reset_expired_cells` can never fire: the
tick never hits its panic case. -/
theorem c10_queue_in_bounds_no_panic {S : Type} (width height : Int) (m : Nat)
    (rng : RangeRng S) (s : S) (ops : List GridOp) :
    (∀ t ∈ (ops.foldl applyGridOp (GameGrid.new width height m rng s).1).timers,
      0 ≤ t.x ∧ t.x < width ∧ 0 ≤ t.y ∧ t.y < height) ∧
    (∀ now,
      (ops.foldl applyGridOp
          (GameGrid.new width height m rng s).1).reset_expired_cells now ≠ none) := by
  have hok0 : TimersOk (GameGrid.new width height m rng s).1 := by
    intro t ht
    have hnil : (GameGrid.new width height m rng s).1.timers = [] := rfl
    rw [hnil] at ht
    cases ht
  have hok := timersOk_foldl (GameGrid.new width height m rng s).1 ops hok0
  obtain ⟨hw, hh, _⟩ :=
    fields_foldl_gridOps (GameGrid.new width height m rng s).1 ops
  have hw' : (ops.foldl applyGridOp (GameGrid.new width height m rng s).1).width =
      width := hw
  have hh' : (ops.foldl applyGridOp (GameGrid.new width height m rng s).1).height =
      height := hh
  constructor
  · intro t ht
    have hin := ((cell_isSome_iff _ t.x t.y).mp (hok t ht)).1
    unfold InBounds at hin
    rw [hw', hh'] at hin
    omega
  · intro now hnone
    have := reset_isSome_of_timersOk _ now hok
    rw [hnone] at this
    exact Bool.noConfusion this

/-- The number of queued expiry records addressing a non-`Solution` cell. -/
def GameGrid.nonSolutionTimerCount (g : GameGrid) : Nat :=
  (g.timers.filter (fun t =>
    match g.cell t.x t.y with
    | some c => !(c.item == GridItem.Solution)
    | none => true)).length

theorem nonSolutionTimerCount_le_timers (g : GameGrid) :
    g.nonSolutionTimerCount ≤ g.timers.length :=
  List.length_filter_le _ _

/-- A 3 by 1 grid with capacity 1 whose non-solution cell `(1, 0)` has been
revealed three times in a row without an intervening tick. -/
def c4CexGrid : GameGrid :=
  ((((GameGrid.new 3 1 1 { gen_range := fun s _ => (0, s) } ()).1.try_reveal
      1 0 0).2.try_reveal 1 0 0).2.try_reveal 1 0 0).2

/-- C4 counterexample: with capacity 1 and three registers before the next
tick, the tick evicts only one record, leaving 2 non-solution records — more
than the capacity — immediately after the tick. -/
theorem c4_capacity_counterexample :
    c4CexGrid.max_revealed_cells = 1 ∧
    (c4CexGrid.reset_expired_cells 0).isSome = true ∧
    1 < ((c4CexGrid.reset_expired_cells 0).getD c4CexGrid).nonSolutionTimerCount := by
  decide

/-- One polling frame of the reveal-expiry window at the documented cadence:
at most one register, then exactly one tick. -/
inductive WindowRound
  | justTick (now : Nat)
  | revealThenTick (x y : Int) (nowR nowT : Nat)

/-- Apply one frame; a (never reached for well-formed grids) panicking tick
is absorbed as a no-op so that traces stay total. -/
def applyWindowRound (g : GameGrid) : WindowRound → GameGrid
  | .justTick now => (g.reset_expired_cells now).getD g
  | .revealThenTick x y nowR nowT =>
      ((g.try_reveal x y nowR).2.reset_expired_cells nowT).getD
        (g.try_reveal x y nowR).2

theorem reset_some_length (g g' : GameGrid) (now : Nat)
    (h : g.reset_expired_cells now = some g')
    (hlen : g.timers.length ≤ g.max_revealed_cells + 1) :
    g'.timers.length ≤ g.max_revealed_cells := by
  obtain ⟨_, _, _, _, hshape, hpop⟩ := reset_some_spec g now g' h
  by_cases hlt : g.max_revealed_cells < g.timers.length
  · have := hpop hlt
    omega
  · rcases hshape with rfl | ⟨t, ht⟩
    · omega
    · have := congrArg List.length ht
      simp only [List.length_cons] at this
      omega

theorem applyWindowRound_step (g : GameGrid) (r : WindowRound) (hok : TimersOk g)
    (hlen : g.timers.length ≤ g.max_revealed_cells) :
    TimersOk (applyWindowRound g r) ∧
    (applyWindowRound g r).max_revealed_cells = g.max_revealed_cells ∧
    (applyWindowRound g r).timers.length ≤ g.max_revealed_cells := by
  cases r with
  | justTick now =>
    obtain ⟨g', hg'⟩ := Option.isSome_iff_exists.mp
      (reset_isSome_of_timersOk g now hok)
    obtain ⟨_, _, hm, _, _, _⟩ := reset_some_spec g now g' hg'
    simp only [applyWindowRound, hg', Option.getD_some]
    exact ⟨timersOk_reset g g' now hok hg', hm,
      reset_some_length g g' now hg' (by omega)⟩
  | revealThenTick x y nowR nowT =>
    have hok1 := timersOk_try_reveal g x y nowR hok
    obtain ⟨_, _, hm1, _, ht1⟩ := try_reveal_fields g x y nowR
    have hlen1 : (g.try_reveal x y nowR).2.timers.length ≤
        (g.try_reveal x y nowR).2.max_revealed_cells + 1 := by
      rcases ht1 with he | ⟨he, _⟩
      · rw [he, hm1]
        omega
      · rw [he, hm1, List.length_append, List.length_singleton]
        omega
    obtain ⟨g', hg'⟩ := Option.isSome_iff_exists.mp
      (reset_isSome_of_timersOk _ nowT hok1)
    obtain ⟨_, _, hm2, _, _, _⟩ := reset_some_spec _ nowT g' hg'
    simp only [applyWindowRound, hg', Option.getD_some]
    have hle := reset_some_length _ g' nowT hg' hlen1
    exact ⟨timersOk_reset _ g' nowT hok1 hg', hm2.trans hm1, by omega⟩

theorem windowRounds_invariant (g0 : GameGrid) (hok : TimersOk g0)
    (hlen : g0.timers.length ≤ g0.max_revealed_cells) (rs : List WindowRound) :
    TimersOk (rs.foldl applyWindowRound g0) ∧
    (rs.foldl applyWindowRound g0).max_revealed_cells = g0.max_revealed_cells ∧
    (rs.foldl applyWindowRound g0).timers.length ≤ g0.max_revealed_cells := by
  induction rs generalizing g0 with
  | nil => exact ⟨hok, rfl, hlen⟩
  | cons r rs ih =>
    rw [List.foldl_cons]
    obtain ⟨h1, h2, h3⟩ := applyWindowRound_step g0 r hok hlen
    obtain ⟨k1, k2, k3⟩ := ih (applyWindowRound g0 r) h1 (by omega)
    exact ⟨k1, by omega, by omega⟩

/-- C4 (amended): under the documented polling cadence — at most one register
between consecutive ticks — a window that starts within its capacity holds at
most `max_revealed` records (hence at most that many non-solution records)
immediately after every tick. -/
theorem c4_capacity_after_tick_amended (g0 : GameGrid) (hok : TimersOk g0)
    (hlen : g0.timers.length ≤ g0.max_revealed_cells) (rs : List WindowRound) :
    (rs.foldl applyWindowRound g0).timers.length ≤ g0.max_revealed_cells ∧
    (rs.foldl applyWindowRound g0).nonSolutionTimerCount ≤
      g0.max_revealed_cells := by
  obtain ⟨_, _, h3⟩ := windowRounds_invariant g0 hok hlen rs
  exact ⟨h3, le_trans (nonSolutionTimerCount_le_timers _) h3⟩

/-- C4 witness: the amended theorem applied to a concrete 1 by 1 grid and a
single tick frame. -/
theorem c4_capacity_after_tick_amended_witness :
    ([WindowRound.justTick 0].foldl applyWindowRound
        { cells := [{ item := GridItem.Empty, revealed := false }], timers := [],
          max_revealed_cells := 6, width := 1, height := 1 }).timers.length ≤ 6 :=
  (c4_capacity_after_tick_amended
    { cells := [{ item := GridItem.Empty, revealed := false }], timers := [],
      max_revealed_cells := 6, width := 1, height := 1 } (by decide) (by decide)
    [WindowRound.justTick 0]).1

/-- Source `GameResult`. -/
inductive GameResult
  | Win
  | Lose
deriving DecidableEq, Repr

/-- Source `GameOverState`. -/
structure GameOverState where
  result : GameResult
  msg_timer : Timer
  frozen_game_time : Nat
deriving DecidableEq, Repr

/-- Source `MouseState`. -/
structure MouseState where
  click : Bool
  x : Int
  y : Int
deriving DecidableEq, Repr

/-- Source `BOARD_FINISH_MSG_TIME` (5 seconds). -/
def BOARD_FINISH_MSG_TIME : Nat := 5

/-- Source `CONFUSION_TIME` (3 seconds). -/
def CONFUSION_TIME : Nat := 3

/-- The mutable state of one `run_game` round. -/
structure RoundState where
  game_grid : GameGrid
  game_timer : Timer
  confusion_timer : Option Timer
  game_over_state : Option GameOverState
deriving DecidableEq, Repr

/-- The state-updating part of one iteration of `run_game`'s loop: while no
game-over is set, advance the expiry window, then check the lose condition,
then interpret a click; independently, clear an expired confusion timer.
`grid_left`/`grid_top` are the grid's screen offsets and `now` the frame's
instant. -/
def frameUpdate (st : RoundState) (mouse : MouseState) (grid_left grid_top : Int)
    (now : Nat) : RoundState :=
  let st1 :=
    match st.game_over_state with
    | some _ => st
    | none =>
      let grid1 := (st.game_grid.reset_expired_cells now).getD st.game_grid
      if st.game_timer.finished now = true then
        { st with
          game_grid := grid1
          game_over_state := some
            { result := GameResult.Lose
              msg_timer := { start_time := now, duration := BOARD_FINISH_MSG_TIME }
              frozen_game_time := st.game_timer.time_left now } }
      else if mouse.click = true then
        let grid_pos := xform.window_to_game_grid mouse.x mouse.y grid_left grid_top
        let rg := grid1.try_reveal grid_pos.1 grid_pos.2 now
        match rg.1 with
        | some GridItem.Solution =>
          { st with
            game_grid := rg.2
            game_over_state := some
              { result := GameResult.Win
                msg_timer := { start_time := now, duration := BOARD_FINISH_MSG_TIME }
                frozen_game_time := st.game_timer.time_left now } }
        | some (GridItem.Trap TrapType.Confusion) =>
          { st with
            game_grid := rg.2
            confusion_timer := some { start_time := now, duration := CONFUSION_TIME } }
        | _ => { st with game_grid := rg.2 }
      else { st with game_grid := grid1 }
  if (st1.confusion_timer.map (fun t => t.finished now)).getD false = true then
    { st1 with confusion_timer := none }
  else st1

theorem confusionClear_fields (st : RoundState) (b : Bool) :
    ((if b = true then { st with confusion_timer := none } else st).game_over_state =
        st.game_over_state) ∧
    ((if b = true then { st with confusion_timer := none } else st).game_grid =
        st.game_grid) := by
  split <;> exact ⟨rfl, rfl⟩

theorem inBounds_of_cell_eq_some (g : GameGrid) (x y : Int) (c : GridCell)
    (h : g.cell x y = some c) : InBounds g x y := by
  intro hcond
  rw [GameGrid.cell, if_pos hcond] at h
  exact Option.noConfusion h

/-- The item returned by `try_reveal` is exactly the stored item of the
addressed cell. -/
theorem try_reveal_fst (g : GameGrid) (x y : Int) (now : Nat) :
    (g.try_reveal x y now).1 = (g.cell x y).map (fun c => c.item) := by
  rcases hc : g.cell x y with _ | c <;> simp [GameGrid.try_reveal, hc]

/-- C7: while `Playing` (`game_over_state = none`), one frame transitions to
`Over(Win)` iff the frame's click-driven reveal returned `Solution` (which
requires the countdown not to have run out, since no reveal is attempted
otherwise); it transitions to `Over(Lose)` iff the round countdown has run
out this frame; the two transition conditions are mutually exclusive; and an
`Over` state, once entered, is preserved by every later frame of the round. -/
theorem c7_win_lose_transitions (st : RoundState) (mouse : MouseState)
    (grid_left grid_top : Int) (now : Nat) :
    (st.game_over_state = none →
      (((frameUpdate st mouse grid_left grid_top now).game_over_state.map
            (fun o => o.result) = some GameResult.Win) ↔
        (st.game_timer.finished now = false ∧ mouse.click = true ∧
          (((st.game_grid.reset_expired_cells now).getD st.game_grid).try_reveal
              (xform.window_to_game_grid mouse.x mouse.y grid_left grid_top).1
              (xform.window_to_game_grid mouse.x mouse.y grid_left grid_top).2
              now).1 = some GridItem.Solution)) ∧
      (((frameUpdate st mouse grid_left grid_top now).game_over_state.map
            (fun o => o.result) = some GameResult.Lose) ↔
        st.game_timer.finished now = true) ∧
      ¬((st.game_timer.finished now = false ∧ mouse.click = true ∧
          (((st.game_grid.reset_expired_cells now).getD st.game_grid).try_reveal
              (xform.window_to_game_grid mouse.x mouse.y grid_left grid_top).1
              (xform.window_to_game_grid mouse.x mouse.y grid_left grid_top).2
              now).1 = some GridItem.Solution) ∧
        st.game_timer.finished now = true)) ∧
    (∀ o, st.game_over_state = some o →
      (frameUpdate st mouse grid_left grid_top now).game_over_state = some o) := by
  constructor
  · intro hplay
    by_cases hf : st.game_timer.finished now = true
    · have hred : (frameUpdate st mouse grid_left grid_top now).game_over_state =
          some { result := GameResult.Lose
                 msg_timer := { start_time := now, duration := BOARD_FINISH_MSG_TIME }
                 frozen_game_time := st.game_timer.time_left now } := by
        simp only [frameUpdate, hplay]
        rw [if_pos hf]
        rw [(confusionClear_fields _ _).1]
      refine ⟨?_, ?_, fun h => Bool.noConfusion (h.1.1 ▸ hf)⟩
      · rw [hred]
        constructor
        · intro hW
          exact absurd hW (by simp)
        · rintro ⟨h1, _, _⟩
          rw [hf] at h1
          exact Bool.noConfusion h1
      · rw [hred]
        exact Iff.intro (fun _ => hf) (fun _ => rfl)
    · have hf' : st.game_timer.finished now = false := by
        cases h : st.game_timer.finished now
        · rfl
        · exact absurd h hf
      by_cases hc : mouse.click = true
      · rcases hR : (((st.game_grid.reset_expired_cells now).getD st.game_grid).try_reveal
            (xform.window_to_game_grid mouse.x mouse.y grid_left grid_top).1
            (xform.window_to_game_grid mouse.x mouse.y grid_left grid_top).2
            now).1 with _ | item
        · have hred : (frameUpdate st mouse grid_left grid_top now).game_over_state =
              none := by
            simp only [frameUpdate, hplay]
            rw [(confusionClear_fields _ _).1]
            rw [if_neg (show ¬(st.game_timer.finished now = true) by simp [hf']),
              if_pos hc]
            simp only [hR]
          refine ⟨?_, ?_, fun h => hf h.2⟩
          · rw [hred]
            constructor
            · intro hW
              exact absurd hW (by simp)
            · rintro ⟨_, _, hS⟩
              exact absurd hS (by simp)
          · rw [hred]
            constructor
            · intro hL
              exact absurd hL (by simp)
            · intro hft
              exact absurd hft hf
        · cases item with
          | Solution =>
            have hred : (frameUpdate st mouse grid_left grid_top now).game_over_state =
                some { result := GameResult.Win
                       msg_timer := { start_time := now, duration := BOARD_FINISH_MSG_TIME }
                       frozen_game_time := st.game_timer.time_left now } := by
              simp only [frameUpdate, hplay]
              rw [(confusionClear_fields _ _).1]
              rw [if_neg (show ¬(st.game_timer.finished now = true) by simp [hf']),
                if_pos hc]
              simp only [hR]
            refine ⟨?_, ?_, fun h => hf h.2⟩
            · rw [hred]
              constructor
              · intro _
                exact ⟨hf', hc, rfl⟩
              · intro _
                rfl
            · rw [hred]
              constructor
              · intro hL
                exact absurd hL (by simp)
              · intro hft
                exact absurd hft hf
          | Hint d =>
            have hred : (frameUpdate st mouse grid_left grid_top now).game_over_state =
                none := by
              simp only [frameUpdate, hplay]
              rw [(confusionClear_fields _ _).1]
              rw [if_neg (show ¬(st.game_timer.finished now = true) by simp [hf']),
                if_pos hc]
              simp only [hR]
            refine ⟨?_, ?_, fun h => hf h.2⟩
            · rw [hred]
              constructor
              · intro hW
                exact absurd hW (by simp)
              · rintro ⟨_, _, hS⟩
                exact absurd hS (by simp)
            · rw [hred]
              constructor
              · intro hL
                exact absurd hL (by simp)
              · intro hft
                exact absurd hft hf
          | Trap t =>
            cases t
            have hred : (frameUpdate st mouse grid_left grid_top now).game_over_state =
                none := by
              simp only [frameUpdate, hplay]
              rw [(confusionClear_fields _ _).1]
              rw [if_neg (show ¬(st.game_timer.finished now = true) by simp [hf']),
                if_pos hc]
              simp only [hR]
            refine ⟨?_, ?_, fun h => hf h.2⟩
            · rw [hred]
              constructor
              · intro hW
                exact absurd hW (by simp)
              · rintro ⟨_, _, hS⟩
                exact absurd hS (by simp)
            · rw [hred]
              constructor
              · intro hL
                exact absurd hL (by simp)
              · intro hft
                exact absurd hft hf
          | Empty =>
            have hred : (frameUpdate st mouse grid_left grid_top now).game_over_state =
                none := by
              simp only [frameUpdate, hplay]
              rw [(confusionClear_fields _ _).1]
              rw [if_neg (show ¬(st.game_timer.finished now = true) by simp [hf']),
                if_pos hc]
              simp only [hR]
            refine ⟨?_, ?_, fun h => hf h.2⟩
            · rw [hred]
              constructor
              · intro hW
                exact absurd hW (by simp)
              · rintro ⟨_, _, hS⟩
                exact absurd hS (by simp)
            · rw [hred]
              constructor
              · intro hL
                exact absurd hL (by simp)
              · intro hft
                exact absurd hft hf
      · have hred : (frameUpdate st mouse grid_left grid_top now).game_over_state =
            none := by
          simp only [frameUpdate, hplay]
          rw [(confusionClear_fields _ _).1]
          rw [if_neg (show ¬(st.game_timer.finished now = true) by simp [hf']),
            if_neg hc]
        refine ⟨?_, ?_, fun h => hf h.2⟩
        · rw [hred]
          constructor
          · intro hW
            exact absurd hW (by simp)
          · rintro ⟨_, hcl, _⟩
            exact absurd hcl hc
        · rw [hred]
          constructor
          · intro hL
            exact absurd hL (by simp)
          · intro hft
            exact absurd hft hf
  · intro o ho
    simp only [frameUpdate]
    rw [(confusionClear_fields _ _).1]
    simp only [ho]

/-- Revealing never changes any stored item. -/
theorem try_reveal_cell_item (g : GameGrid) (x y a b : Int) (now : Nat) :
    ((g.try_reveal x y now).2.cell a b).map (fun c => c.item) =
      (g.cell a b).map (fun c => c.item) := by
  rcases hc : g.cell x y with _ | c
  · simp [GameGrid.try_reveal, hc]
  · have hin := inBounds_of_cell_eq_some g x y c hc
    have hidx : (g.width * y + x).toNat < g.cells.length := by
      rw [cell_eq_getElem? g x y hin] at hc
      exact (getElem?_isSome_iff _ _).mp (by rw [hc]; rfl)
    simp only [GameGrid.try_reveal, hc]
    by_cases hin' : InBounds g a b
    · rw [GameGrid.cell, GameGrid.cell]
      dsimp only
      rw [if_neg hin', if_neg hin']
      by_cases heq : a = x ∧ b = y
      · obtain ⟨rfl, rfl⟩ := heq
        rw [List.getElem?_set_self hidx]
        rw [cell_eq_getElem? g a b hin'] at hc
        rw [hc]
        rfl
      · rw [List.getElem?_set_ne]
        intro hidxeq
        unfold InBounds at hin hin'
        obtain ⟨h1, h2⟩ := flatIndex_inj g.width x y a b (by omega) (by omega)
          (by omega) (by omega) (by omega) (by omega) hidxeq
        exact heq ⟨h1.symm, h2.symm⟩
    · have hcond' : a < 0 ∨ a ≥ g.width ∨ b < 0 ∨ b ≥ g.height := by
        by_contra hcc
        exact hin' hcc
      rw [GameGrid.cell, GameGrid.cell]
      dsimp only
      rw [if_pos hcond', if_pos hcond']

/-- Revealing never clears a `revealed` flag. -/
theorem try_reveal_preserves_revealed (g : GameGrid) (x y a b : Int) (now : Nat)
    (h : (g.cell a b).map (fun c => c.revealed) = some true) :
    ((g.try_reveal x y now).2.cell a b).map (fun c => c.revealed) = some true := by
  rcases hc : g.cell x y with _ | c
  · simp only [GameGrid.try_reveal, hc]
    exact h
  · have hin := inBounds_of_cell_eq_some g x y c hc
    have hidx : (g.width * y + x).toNat < g.cells.length := by
      rw [cell_eq_getElem? g x y hin] at hc
      exact (getElem?_isSome_iff _ _).mp (by rw [hc]; rfl)
    rcases hab : g.cell a b with _ | ca
    · rw [hab] at h
      exact Option.noConfusion h
    · have hin' := inBounds_of_cell_eq_some g a b ca hab
      simp only [GameGrid.try_reveal, hc]
      rw [GameGrid.cell]
      dsimp only
      rw [if_neg hin']
      by_cases heq : a = x ∧ b = y
      · obtain ⟨rfl, rfl⟩ := heq
        rw [List.getElem?_set_self hidx]
        rfl
      · rw [List.getElem?_set_ne]
        · rw [cell_eq_getElem? g a b hin'] at h
          exact h
        · intro hidxeq
          unfold InBounds at hin hin'
          obtain ⟨h1, h2⟩ := flatIndex_inj g.width x y a b (by omega) (by omega)
            (by omega) (by omega) (by omega) (by omega) hidxeq
          exact heq ⟨h1.symm, h2.symm⟩

/-- A non-panicking tick leaves every cell untouched whose coordinates are
not addressed by any queued record. -/
theorem reset_some_cell_preserved (g g' : GameGrid) (now : Nat) (x y : Int)
    (h : g.reset_expired_cells now = some g')
    (hnot : ∀ t ∈ g.timers, ¬(t.x = x ∧ t.y = y)) :
    g'.cell x y = g.cell x y := by
  rcases htimers : g.timers with _ | ⟨t, rest⟩
  · simp only [GameGrid.reset_expired_cells, htimers, Option.some.injEq] at h
    subst h
    rfl
  · simp only [GameGrid.reset_expired_cells, htimers] at h
    by_cases hcond : g.max_revealed_cells < (t :: rest).length ∨
        t.timer.finished now = true
    · rw [if_pos hcond] at h
      rcases hc : g.cell t.x t.y with _ | c
      · rw [hc] at h
        exact Option.noConfusion h
      · rw [hc, Option.some.injEq] at h
        subst h
        have htin := inBounds_of_cell_eq_some g t.x t.y c hc
        have htne := hnot t (htimers ▸ List.mem_cons_self t rest)
        by_cases hin : InBounds g x y
        · rw [GameGrid.cell, GameGrid.cell]
          dsimp only
          rw [if_neg hin, if_neg hin]
          apply List.getElem?_set_ne
          intro heq
          unfold InBounds at htin hin
          obtain ⟨hx, hy⟩ := flatIndex_inj g.width t.x t.y x y (by omega) (by omega)
            (by omega) (by omega) (by omega) (by omega) heq
          exact htne ⟨hx, hy⟩
        · have hcond' : x < 0 ∨ x ≥ g.width ∨ y < 0 ∨ y ≥ g.height := by
            by_contra hcc
            exact hin hcc
          rw [GameGrid.cell, GameGrid.cell]
          dsimp only
          rw [if_pos hcond', if_pos hcond']
    · rw [if_neg hcond, Option.some.injEq] at h
      subst h
      rfl

/-- A non-panicking tick never changes any stored item. -/
theorem reset_some_cell_item (g g' : GameGrid) (now : Nat) (a b : Int)
    (h : g.reset_expired_cells now = some g') :
    (g'.cell a b).map (fun c => c.item) = (g.cell a b).map (fun c => c.item) := by
  rcases htimers : g.timers with _ | ⟨t, rest⟩
  · simp only [GameGrid.reset_expired_cells, htimers, Option.some.injEq] at h
    subst h
    rfl
  · simp only [GameGrid.reset_expired_cells, htimers] at h
    by_cases hcond : g.max_revealed_cells < (t :: rest).length ∨
        t.timer.finished now = true
    · rw [if_pos hcond] at h
      rcases hc : g.cell t.x t.y with _ | c
      · rw [hc] at h
        exact Option.noConfusion h
      · rw [hc, Option.some.injEq] at h
        subst h
        have htin := inBounds_of_cell_eq_some g t.x t.y c hc
        have hidx : (g.width * t.y + t.x).toNat < g.cells.length := by
          rw [cell_eq_getElem? g t.x t.y htin] at hc
          exact (getElem?_isSome_iff _ _).mp (by rw [hc]; rfl)
        by_cases hin : InBounds g a b
        · rw [GameGrid.cell, GameGrid.cell]
          dsimp only
          rw [if_neg hin, if_neg hin]
          by_cases heq : a = t.x ∧ b = t.y
          · obtain ⟨rfl, rfl⟩ := heq
            rw [List.getElem?_set_self hidx]
            rw [cell_eq_getElem? g t.x t.y hin] at hc
            rw [hc]
            rfl
          · rw [List.getElem?_set_ne]
            intro hidxeq
            unfold InBounds at htin hin
            obtain ⟨h1, h2⟩ := flatIndex_inj g.width t.x t.y a b (by omega) (by omega)
              (by omega) (by omega) (by omega) (by omega) hidxeq
            exact heq ⟨h1.symm, h2.symm⟩
        · have hcond' : a < 0 ∨ a ≥ g.width ∨ b < 0 ∨ b ≥ g.height := by
            by_contra hcc
            exact hin hcc
          rw [GameGrid.cell, GameGrid.cell]
          dsimp only
          rw [if_pos hcond', if_pos hcond']
    · rw [if_neg hcond, Option.some.injEq] at h
      subst h
      rfl

/-- Once a round is over its outcome and its grid are frozen. -/
theorem frameUpdate_over_frozen (st : RoundState) (mouse : MouseState)
    (gl gt : Int) (now : Nat) (o : GameOverState)
    (ho : st.game_over_state = some o) :
    (frameUpdate st mouse gl gt now).game_over_state = some o ∧
    (frameUpdate st mouse gl gt now).game_grid = st.game_grid := by
  constructor
  · simp only [frameUpdate]
    rw [(confusionClear_fields _ _).1]
    simp only [ho]
  · simp only [frameUpdate]
    rw [(confusionClear_fields _ _).2]
    simp only [ho]

/-- Reduction of one playing frame: which grid the frame ends with, and that
only a reveal returning `Solution` can end it with a `Win`. -/
theorem frameUpdate_playing_spec (st : RoundState) (mouse : MouseState)
    (gl gt : Int) (now : Nat) (hplay : st.game_over_state = none) :
    (st.game_timer.finished now = true →
      (frameUpdate st mouse gl gt now).game_grid =
        (st.game_grid.reset_expired_cells now).getD st.game_grid) ∧
    (st.game_timer.finished now = false → mouse.click = false →
      (frameUpdate st mouse gl gt now).game_grid =
          (st.game_grid.reset_expired_cells now).getD st.game_grid ∧
      (frameUpdate st mouse gl gt now).game_over_state = none) ∧
    (st.game_timer.finished now = false → mouse.click = true →
      (frameUpdate st mouse gl gt now).game_grid =
          (((st.game_grid.reset_expired_cells now).getD st.game_grid).try_reveal
              (xform.window_to_game_grid mouse.x mouse.y gl gt).1
              (xform.window_to_game_grid mouse.x mouse.y gl gt).2 now).2 ∧
      ((frameUpdate st mouse gl gt now).game_over_state = none →
        (((st.game_grid.reset_expired_cells now).getD st.game_grid).try_reveal
            (xform.window_to_game_grid mouse.x mouse.y gl gt).1
            (xform.window_to_game_grid mouse.x mouse.y gl gt).2 now).1 ≠
          some GridItem.Solution)) := by
  refine ⟨?_, ?_, ?_⟩
  · intro hf
    simp only [frameUpdate, hplay]
    rw [if_pos hf]
    rw [(confusionClear_fields _ _).2]
  · intro hf' hc
    constructor
    · simp only [frameUpdate, hplay]
      rw [(confusionClear_fields _ _).2]
      rw [if_neg (show ¬(st.game_timer.finished now = true) by simp [hf']),
        if_neg (show ¬(mouse.click = true) by simp [hc])]
    · simp only [frameUpdate, hplay]
      rw [(confusionClear_fields _ _).1]
      rw [if_neg (show ¬(st.game_timer.finished now = true) by simp [hf']),
        if_neg (show ¬(mouse.click = true) by simp [hc])]
  · intro hf' hc
    rcases hR : (((st.game_grid.reset_expired_cells now).getD st.game_grid).try_reveal
        (xform.window_to_game_grid mouse.x mouse.y gl gt).1
        (xform.window_to_game_grid mouse.x mouse.y gl gt).2 now).1 with _ | item
    · constructor
      · simp only [frameUpdate, hplay]
        rw [(confusionClear_fields _ _).2]
        rw [if_neg (show ¬(st.game_timer.finished now = true) by simp [hf']),
          if_pos hc]
        simp only [hR]
      · intro _ hS
        exact Option.noConfusion hS
    · cases item with
      | Solution =>
        constructor
        · simp only [frameUpdate, hplay]
          rw [(confusionClear_fields _ _).2]
          rw [if_neg (show ¬(st.game_timer.finished now = true) by simp [hf']),
            if_pos hc]
          simp only [hR]
        · intro hnone
          exfalso
          have hover : (frameUpdate st mouse gl gt now).game_over_state =
              some { result := GameResult.Win
                     msg_timer := { start_time := now, duration := BOARD_FINISH_MSG_TIME }
                     frozen_game_time := st.game_timer.time_left now } := by
            simp only [frameUpdate, hplay]
            rw [(confusionClear_fields _ _).1]
            rw [if_neg (show ¬(st.game_timer.finished now = true) by simp [hf']),
              if_pos hc]
            simp only [hR]
          rw [hnone] at hover
          exact Option.noConfusion hover
      | Hint d =>
        refine ⟨?_, fun _ hS => by simp at hS⟩
        simp only [frameUpdate, hplay]
        rw [(confusionClear_fields _ _).2]
        rw [if_neg (show ¬(st.game_timer.finished now = true) by simp [hf']),
          if_pos hc]
        simp only [hR]
      | Trap t =>
        cases t
        refine ⟨?_, fun _ hS => by simp at hS⟩
        simp only [frameUpdate, hplay]
        rw [(confusionClear_fields _ _).2]
        rw [if_neg (show ¬(st.game_timer.finished now = true) by simp [hf']),
          if_pos hc]
        simp only [hR]
      | Empty =>
        refine ⟨?_, fun _ hS => by simp at hS⟩
        simp only [frameUpdate, hplay]
        rw [(confusionClear_fields _ _).2]
        rw [if_neg (show ¬(st.game_timer.finished now = true) by simp [hf']),
          if_pos hc]
        simp only [hR]

/-- The stored item at `(sx, sy)` is the `Solution`. -/
def SolutionAt (sx sy : Int) (st : RoundState) : Prop :=
  (st.game_grid.cell sx sy).map (fun c => c.item) = some GridItem.Solution

instance (sx sy : Int) (st : RoundState) : Decidable (SolutionAt sx sy st) := by
  unfold SolutionAt
  infer_instance

/-- While the round is still playing, no queued expiry record addresses the
solution cell. -/
def NoSolutionRecord (sx sy : Int) (st : RoundState) : Prop :=
  st.game_over_state = none →
    ∀ t ∈ st.game_grid.timers, ¬(t.x = sx ∧ t.y = sy)

instance (sx sy : Int) (st : RoundState) : Decidable (NoSolutionRecord sx sy st) := by
  unfold NoSolutionRecord
  infer_instance

/-- One frame preserves: the solution's stored item, the absence of queued
solution records while playing, and — the key point — a `revealed` solution
flag. -/
theorem frame_solution_invariant (sx sy : Int) (st : RoundState)
    (mouse : MouseState) (gl gt : Int) (now : Nat)
    (hsol : SolutionAt sx sy st) (hnr : NoSolutionRecord sx sy st) :
    SolutionAt sx sy (frameUpdate st mouse gl gt now) ∧
    NoSolutionRecord sx sy (frameUpdate st mouse gl gt now) ∧
    ((st.game_grid.cell sx sy).map (fun c => c.revealed) = some true →
      ((frameUpdate st mouse gl gt now).game_grid.cell sx sy).map
        (fun c => c.revealed) = some true) := by
  rcases hover : st.game_over_state with _ | o
  case some =>
    obtain ⟨h1, h2⟩ := frameUpdate_over_frozen st mouse gl gt now o hover
    refine ⟨?_, ?_, ?_⟩
    · unfold SolutionAt at hsol ⊢
      rw [h2]
      exact hsol
    · intro habs
      rw [h1] at habs
      exact Option.noConfusion habs
    · intro hrev
      rw [h2]
      exact hrev
  case none =>
    obtain ⟨hA, hB, hC⟩ := frameUpdate_playing_spec st mouse gl gt now hover
    have hrecs := hnr hover
    have hcellG : ((st.game_grid.reset_expired_cells now).getD st.game_grid).cell
        sx sy = st.game_grid.cell sx sy := by
      rcases hr : st.game_grid.reset_expired_cells now with _ | g'
      · rw [Option.getD_none]
      · rw [Option.getD_some]
        exact reset_some_cell_preserved _ g' now sx sy hr hrecs
    have hrecsG : ∀ t ∈ ((st.game_grid.reset_expired_cells now).getD
        st.game_grid).timers, ¬(t.x = sx ∧ t.y = sy) := by
      rcases hr : st.game_grid.reset_expired_cells now with _ | g'
      · rw [Option.getD_none]
        exact hrecs
      · rw [Option.getD_some]
        intro t ht
        obtain ⟨_, _, _, _, hshape, _⟩ := reset_some_spec _ now g' hr
        rcases hshape with heq | ⟨t0, he⟩
        · exact hrecs t (heq ▸ ht)
        · exact hrecs t (he ▸ List.mem_cons_of_mem t0 ht)
    by_cases hf : st.game_timer.finished now = true
    · have hg := hA hf
      refine ⟨?_, ?_, ?_⟩
      · unfold SolutionAt at hsol ⊢
        rw [hg, hcellG]
        exact hsol
      · intro hnone t ht
        rw [hg] at ht
        exact hrecsG t ht
      · intro hrev
        rw [hg, hcellG]
        exact hrev
    · have hf' : st.game_timer.finished now = false := by
        cases h : st.game_timer.finished now
        · rfl
        · exact absurd h hf
      by_cases hc : mouse.click = true
      · obtain ⟨hg, hns⟩ := hC hf' hc
        refine ⟨?_, ?_, ?_⟩
        · unfold SolutionAt at hsol ⊢
          rw [hg, try_reveal_cell_item, hcellG]
          exact hsol
        · intro hnone t ht
          have hne := hns hnone
          rw [hg] at ht
          obtain ⟨_, _, _, _, hti⟩ :=
            try_reveal_fields ((st.game_grid.reset_expired_cells now).getD st.game_grid)
              (xform.window_to_game_grid mouse.x mouse.y gl gt).1
              (xform.window_to_game_grid mouse.x mouse.y gl gt).2 now
          rcases hti with he | ⟨he, _⟩
          · exact hrecsG t (he ▸ ht)
          · rw [he] at ht
            rcases List.mem_append.mp ht with hold | hnew
            · exact hrecsG t hold
            · rcases List.mem_singleton.mp hnew with rfl
              rintro ⟨hx, hy⟩
              apply hne
              rw [try_reveal_fst]
              dsimp only at hx hy
              rw [hx, hy, hcellG]
              exact hsol
        · intro hrev
          rw [hg]
          apply try_reveal_preserves_revealed
          rw [hcellG]
          exact hrev
      · have hc' : mouse.click = false := by
          cases h : mouse.click
          · rfl
          · exact absurd h hc
        obtain ⟨hg, hno⟩ := hB hf' hc'
        refine ⟨?_, ?_, ?_⟩
        · unfold SolutionAt at hsol ⊢
          rw [hg, hcellG]
          exact hsol
        · intro _ t ht
          rw [hg] at ht
          exact hrecsG t ht
        · intro hrev
          rw [hg, hcellG]
          exact hrev

/-- The per-frame external inputs of one `run_game` loop iteration. -/
structure FrameInput where
  mouse : MouseState
  grid_left : Int
  grid_top : Int
  now : Nat

/-- Run one frame of the round loop. -/
def applyFrame (st : RoundState) (i : FrameInput) : RoundState :=
  frameUpdate st i.mouse i.grid_left i.grid_top i.now

theorem frames_solution_invariant (sx sy : Int) (st0 : RoundState)
    (hsol : SolutionAt sx sy st0) (hnr : NoSolutionRecord sx sy st0)
    (is : List FrameInput) :
    SolutionAt sx sy (is.foldl applyFrame st0) ∧
    NoSolutionRecord sx sy (is.foldl applyFrame st0) ∧
    ((st0.game_grid.cell sx sy).map (fun c => c.revealed) = some true →
      ((is.foldl applyFrame st0).game_grid.cell sx sy).map
        (fun c => c.revealed) = some true) := by
  induction is generalizing st0 with
  | nil => exact ⟨hsol, hnr, fun h => h⟩
  | cons i is ih =>
    rw [List.foldl_cons]
    obtain ⟨h1, h2, h3⟩ :=
      frame_solution_invariant sx sy st0 i.mouse i.grid_left i.grid_top i.now hsol hnr
    obtain ⟨k1, k2, k3⟩ := ih (applyFrame st0 i) h1 h2
    exact ⟨k1, k2, fun hrev => k3 (h3 hrev)⟩

/-- C10 witness: a concrete generated grid driven by one reveal and one tick
still ticks without hitting the panic case. -/
theorem c10_queue_in_bounds_no_panic_witness :
    ([GridOp.reveal 0 0 0, GridOp.tick 1].foldl applyGridOp
        (GameGrid.new 2 2 6 { gen_range := fun s _ => (0, s) } ()).1).reset_expired_cells
      5 ≠ none :=
  (c10_queue_in_bounds_no_panic 2 2 6 { gen_range := fun s _ => (0, s) } ()
    [GridOp.reveal 0 0 0, GridOp.tick 1]).2 5

/-- A freshly started 3 by 1 round whose solution lies at `(0, 0)`, used to
exercise the win transition. -/
def c7WitnessState : RoundState :=
  { game_grid := (GameGrid.new 3 1 1 { gen_range := fun s _ => (0, s) } ()).1
    game_timer := { start_time := 0, duration := 15 }
    confusion_timer := none
    game_over_state := none }

/-- C7 witness: on the concrete round, clicking the solution cell wins. -/
theorem c7_win_lose_transitions_witness :
    (frameUpdate c7WitnessState { click := true, x := 1, y := 1 } 0 0
        0).game_over_state.map (fun o => o.result) = some GameResult.Win :=
  (((c7_win_lose_transitions c7WitnessState { click := true, x := 1, y := 1 }
      0 0 0).1 (by decide)).1).mpr (by decide)

/-- The number of queued expiry records addressing the `Solution` cell. -/
def GameGrid.solutionTimerCount (g : GameGrid) : Nat :=
  (g.timers.filter (fun t =>
    match g.cell t.x t.y with
    | some c => c.item == GridItem.Solution
    | none => false)).length

/-- A freshly started 3 by 1 round whose solution lies at `(0, 0)`. -/
def c9CexState : RoundState :=
  { game_grid := (GameGrid.new 3 1 1 { gen_range := fun s _ => (0, s) } ()).1
    game_timer := { start_time := 0, duration := 15 }
    confusion_timer := none
    game_over_state := none }

/-- C9 counterexample: the winning click itself pushes an expiry record for
the `Solution` cell into the queue, so the claim's clause that the round
reaches `Win` "before the Solution could ever be queued for expiry" is wrong:
at the moment of the `Win` transition the queue holds exactly one record for
the solution cell. -/
theorem c9_solution_queued_counterexample :
    ((frameUpdate c9CexState { click := true, x := 1, y := 1 } 0 0
        0).game_over_state.map (fun o => o.result) = some GameResult.Win) ∧
    (frameUpdate c9CexState { click := true, x := 1, y := 1 } 0 0
        0).game_grid.solutionTimerCount = 1 := by
  decide

/-- C9 (amended): in the wired round loop the Solution cell is never evicted
by the reveal-expiry window: a record for the Solution is queued by the
winning reveal itself, but the `Win` transition stops all further grid
updates, so the record is never processed and the Solution cell's `revealed`
flag, once set, is never reset to false — across any sequence of frames. -/
theorem c9_solution_never_unrevealed_amended (sx sy : Int) (st0 : RoundState)
    (hsol : SolutionAt sx sy st0) (hnr : NoSolutionRecord sx sy st0)
    (hrev : (st0.game_grid.cell sx sy).map (fun c => c.revealed) = some true)
    (is : List FrameInput) :
    ((is.foldl applyFrame st0).game_grid.cell sx sy).map (fun c => c.revealed) =
      some true :=
  (frames_solution_invariant sx sy st0 hsol hnr is).2.2 hrev

/-- C9 witness: after the winning click on the concrete round, one further
frame leaves the solution revealed. -/
theorem c9_solution_never_unrevealed_amended_witness :
    (([({ mouse := { click := false, x := 0, y := 0 }, grid_left := 0,
          grid_top := 0, now := 9 } : FrameInput)].foldl applyFrame
        (frameUpdate c9CexState { click := true, x := 1, y := 1 } 0 0
          0)).game_grid.cell 0 0).map (fun c => c.revealed) = some true :=
  c9_solution_never_unrevealed_amended 0 0
    (frameUpdate c9CexState { click := true, x := 1, y := 1 } 0 0 0)
    (by decide) (by decide) (by decide) _

/-- Modelled from the spec section 4.1 step 3, for refinement comparison with
the source function only: the spec resolves an absolute-displacement tie
toward the horizontal axis. -/
def spec_hint_direction (dx dy : Int) : HintDir :=
  if dx.natAbs ≥ dy.natAbs then
    if dx > 0 then HintDir.Left else HintDir.Right
  else
    if dy > 0 then HintDir.Up else HintDir.Down

/-- One grid step in the direction of a hint, applied to the displacement
`(dx, dy)` from the solution to the cell: moving the cell one step along the
hint changes the displacement by one on the chosen axis. -/
def stepDisplacement (d : HintDir) (dx dy : Int) : Int × Int :=
  match d with
  | .Left => (dx - 1, dy)
  | .Right => (dx + 1, dy)
  | .Up => (dx, dy - 1)
  | .Down => (dx, dy + 1)

/-- C2 counterexample: at displacement `(1, 1)` (a tie `|dx| = |dy|`), the code
picks the vertical axis and returns `Up`, while the claim's horizontal
tie-break with `dx > 0` would return `Left`. -/
theorem c2_tie_break_counterexample :
    displacement_to_hint_direction 1 1 = HintDir.Up ∧
    spec_hint_direction 1 1 = HintDir.Left ∧
    displacement_to_hint_direction 1 1 ≠ spec_hint_direction 1 1 := by
  decide

/-- C2 (amended): for a nonzero displacement, the axis with the strictly
larger absolute displacement wins, with ties broken toward the VERTICAL axis;
positive `dx` gives `Left`, negative `dx` gives `Right`, positive `dy` gives
`Up`, negative `dy` gives `Down`; and following the returned hint strictly
decreases the distance to the solution. -/
theorem c2_hint_direction_amended (dx dy : Int) (h : ¬(dx = 0 ∧ dy = 0)) :
    (dy.natAbs < dx.natAbs →
      displacement_to_hint_direction dx dy =
        if 0 < dx then HintDir.Left else HintDir.Right) ∧
    (dx.natAbs ≤ dy.natAbs →
      displacement_to_hint_direction dx dy =
        if 0 < dy then HintDir.Up else HintDir.Down) ∧
    (stepDisplacement (displacement_to_hint_direction dx dy) dx dy).1.natAbs +
        (stepDisplacement (displacement_to_hint_direction dx dy) dx dy).2.natAbs <
      dx.natAbs + dy.natAbs := by
  refine ⟨fun h1 => ?_, fun h1 => ?_, ?_⟩
  · rw [displacement_to_hint_direction, if_pos h1]
  · rw [displacement_to_hint_direction, if_neg (by omega)]
  · by_cases h1 : dy.natAbs < dx.natAbs
    · rw [displacement_to_hint_direction, if_pos h1]
      by_cases h2 : 0 < dx
      · rw [if_pos h2]; simp only [stepDisplacement]; omega
      · rw [if_neg h2]; simp only [stepDisplacement]; omega
    · rw [displacement_to_hint_direction, if_neg h1]
      by_cases h2 : 0 < dy
      · rw [if_pos h2]; simp only [stepDisplacement]; omega
      · rw [if_neg h2]; simp only [stepDisplacement]; omega

/-- C2 witness: the amended theorem instantiated at displacement `(2, 1)`. -/
theorem c2_hint_direction_amended_witness :
    ¬((2 : Int) = 0 ∧ (1 : Int) = 0) ∧
      ((1 : Int).natAbs < (2 : Int).natAbs →
        displacement_to_hint_direction 2 1 =
          if (0 : Int) < 2 then HintDir.Left else HintDir.Right) :=
  ⟨by decide, (c2_hint_direction_amended 2 1 (by decide)).1⟩

/-- C3 counterexample: at `level = 6442450944` (so `level / 3 = 2 ^ 31`), the
`usize → i32` cast of the difficulty step wraps to a negative growth and the
grid size leaves the documented bounds; monotonicity fails against `level = 1`. -/
theorem c3_grid_size_wrap_counterexample :
    (get_grid_size_from_level 6442450944).1 = -2147483633 ∧
    (get_grid_size_from_level 6442450944).2 = -2147483638 ∧
    (get_grid_size_from_level 6442450944).1 < (get_grid_size_from_level 1).1 := by
  decide

/-- C3 (amended): round duration and reveal-window capacity are monotone
non-increasing and saturate at their floors (5 seconds, capacity 1) for every
representable (`< 2 ^ 64`) level; the grid size is monotone non-decreasing and
capped at `+10` growth per dimension only for levels below `6442450944`, where
the `usize → i32` cast of `level / 3` does not yet wrap; the documented
endpoint values at levels 1 and 30 all hold. -/
theorem c3_difficulty_curves_amended (l1 l2 : Nat) (h12 : l1 ≤ l2) (h64 : l2 < 2 ^ 64) :
    (get_board_time_from_level l2 ≤ get_board_time_from_level l1 ∧
      5 ≤ get_board_time_from_level l2 ∧ get_board_time_from_level l2 ≤ 15) ∧
    (get_max_revealed_cells_from_level l2 ≤ get_max_revealed_cells_from_level l1 ∧
      1 ≤ get_max_revealed_cells_from_level l2 ∧ get_max_revealed_cells_from_level l2 ≤ 6) ∧
    (l2 < 6442450944 →
      (get_grid_size_from_level l1).1 ≤ (get_grid_size_from_level l2).1 ∧
      (get_grid_size_from_level l1).2 ≤ (get_grid_size_from_level l2).2 ∧
      15 ≤ (get_grid_size_from_level l2).1 ∧ (get_grid_size_from_level l2).1 ≤ 25 ∧
      10 ≤ (get_grid_size_from_level l2).2 ∧ (get_grid_size_from_level l2).2 ≤ 20) ∧
    (get_board_time_from_level 1 = 15 ∧ get_board_time_from_level 30 = 5 ∧
      get_grid_size_from_level 1 = (15, 10) ∧ get_grid_size_from_level 30 = (25, 20) ∧
      get_max_revealed_cells_from_level 1 = 6 ∧ get_max_revealed_cells_from_level 30 = 1) := by
  refine ⟨?_, ?_, fun h31 => ?_, by decide⟩
  · simp only [get_board_time_from_level]
    omega
  · simp only [get_max_revealed_cells_from_level]
    omega
  · simp only [get_grid_size_from_level, usize_as_i32]
    omega

/-- C3 witness: the amended theorem instantiated at levels 1 and 30. -/
theorem c3_difficulty_curves_amended_witness :
    get_board_time_from_level 30 ≤ get_board_time_from_level 1 ∧
      5 ≤ get_board_time_from_level 30 ∧ get_board_time_from_level 30 ≤ 15 :=
  (c3_difficulty_curves_amended 1 30 (by decide) (by decide)).1

/-- C6: every display point inside the rectangle returned by
`game_grid_to_window x y left top` is mapped back to exactly `(x, y)` by
`window_to_game_grid`, for non-negative grid coordinates. -/
theorem c6_transform_round_trip (x y grid_left grid_top px py : Int)
    (hx : 0 ≤ x) (hy : 0 ≤ y)
    (hl : (xform.game_grid_to_window x y grid_left grid_top).left ≤ px)
    (hr : px ≤ (xform.game_grid_to_window x y grid_left grid_top).right)
    (ht : (xform.game_grid_to_window x y grid_left grid_top).top ≤ py)
    (hb : py ≤ (xform.game_grid_to_window x y grid_left grid_top).bottom) :
    xform.window_to_game_grid px py grid_left grid_top = (x, y) := by
  simp only [xform.game_grid_to_window, Rect.right, Rect.bottom] at hl hr ht hb
  simp only [xform.window_to_game_grid]
  rw [Int.tdiv_eq_ediv (by omega) (by omega), Int.tdiv_eq_ediv (by omega) (by omega)]
  refine Prod.ext ?_ ?_
  · show (px - grid_left - 1) / 4 = x
    omega
  · show (py - grid_top - 1) / 2 = y
    omega

/-- C6 witness: the round trip at the spec's worked example
`offset_left = 1, offset_top = 5, (x, y) = (3, 1)`, display point `(16, 9)`. -/
theorem c6_transform_round_trip_witness :
    xform.window_to_game_grid 16 9 1 5 = (3, 1) :=
  c6_transform_round_trip 3 1 1 5 16 9 (by decide) (by decide) (by decide) (by decide)
    (by decide) (by decide)

end LnF
